import Mathlib

/-!
Shallow embedding of the service-worker caching layer of this repository
(`src/sw.js`) together with proofs of the specified properties.

Modelling conventions:
* A stored HTTP response is a status/body pair; response `clone()` is the
  identity on these immutable values.
* A cache partition is an association list from the request URL (the cache
  key of a GET request) to the stored response; the CacheStorage is an
  association list from partition name to partition, in creation order.
* The network is a function from requests to `Option Response`; `none`
  models a rejected fetch (network error), `some r` a resolved response of
  any HTTP status.
* An async strategy's outcome is `Except Unit (Option Response)`:
  `.error ()` models a rejected promise propagating to the caller,
  `.ok none` a promise that resolved to `undefined`,
  `.ok (some r)` a promise that resolved to a response.
  Each strategy also returns the updated CacheStorage and the list of
  network fetches it issued.
-/

namespace SW

/-- A stored HTTP response snapshot. -/
structure Response where
  status : Nat
  body : String
  deriving DecidableEq, Repr

/-- JavaScript `Response.ok`: the status is in the 200-299 range. -/
def Response.ok (r : Response) : Bool := 200 ≤ r.status && r.status ≤ 299

/-- A cache partition: request-URL keyed store of responses. -/
abbrev Partition := List (String × Response)

/-- The CacheStorage: named partitions in creation order. -/
abbrev CacheStorage := List (String × Partition)

/-- An intercepted request. `url` is the full URL; `origin` and `pathname`
are its components as produced by `new URL(request.url)`. -/
structure Request where
  method : String
  url : String
  origin : String
  pathname : String
  mode : String
  deriving DecidableEq, Repr

/-- The network: `none` models a rejected fetch (network error). -/
abbrev Network := Request → Option Response

/-- Source: `const VERSION = '2025‑07‑07‑v1';` (the separators are U+2011). -/
def VERSION : String := "2025‑07‑07‑v1"

/-- Source: ``const STATIC_CACHE = `static‑${VERSION}`;`` generalised over the
version tag. -/
def staticCacheFor (version : String) : String := "static‑" ++ version

/-- Source: ``const RUNTIME_CACHE = `runtime‑${VERSION}`;`` generalised over the
version tag. -/
def runtimeCacheFor (version : String) : String := "runtime‑" ++ version

def STATIC_CACHE : String := staticCacheFor VERSION

def RUNTIME_CACHE : String := runtimeCacheFor VERSION

/-- Source: `const PRECACHE_URLS = [...]` from `src/sw.js`. -/
def PRECACHE_URLS : List String :=
  [ "/",
    "/index.html",
    "/css/styles.css",
    "/js/main.js",
    "/js/form-secure.js",
    "/assets/hero.webp",
    "/assets/mobile.webp",
    "/favicon.ico" ]

/-! ### Cache API primitives -/

/-- Model of `caches.keys()`. -/
def cachesKeys (st : CacheStorage) : List String := st.map Prod.fst

/-- Model of `caches.open(name)`: open-or-create; a fresh empty partition is
appended when `name` does not exist yet. -/
def cachesOpen (name : String) (st : CacheStorage) : CacheStorage :=
  if st.any (fun kv => kv.1 == name) then st else st ++ [(name, [])]

/-- Model of `caches.delete(name)`. -/
def cachesDelete (name : String) (st : CacheStorage) : CacheStorage :=
  st.filter (fun kv => kv.1 != name)

/-- Entries of a named partition (`[]` when the partition does not exist). -/
def entriesOf (name : String) (st : CacheStorage) : Partition :=
  ((st.find? (fun kv => kv.1 == name)).map Prod.snd).getD []

/-- Model of `cache.match(key)` on one partition. -/
def partMatch (p : Partition) (key : String) : Option Response :=
  (p.find? (fun kv => kv.1 == key)).map Prod.snd

/-- Model of `cache.put(key, r)` on one partition: overwrite in place or append. -/
def partPut (p : Partition) (key : String) (r : Response) : Partition :=
  if p.any (fun kv => kv.1 == key) then
    p.map (fun kv => if kv.1 == key then (kv.1, r) else kv)
  else
    p ++ [(key, r)]

/-- Model of `cache.match(key)` on the partition named `name`. -/
def cacheMatch (name : String) (key : String) (st : CacheStorage) : Option Response :=
  partMatch (entriesOf name st) key

/-- Model of `cache.put(key, r)` on the partition named `name` (no-op when the
partition does not exist; the strategies always open it first). -/
def cachePut (name : String) (key : String) (r : Response) (st : CacheStorage) : CacheStorage :=
  st.map (fun kv => if kv.1 == name then (kv.1, partPut kv.2 key r) else kv)

/-- Model of `caches.match(key)`: search every partition in order. -/
def cachesMatchAll (key : String) (st : CacheStorage) : Option Response :=
  match st with
  | [] => none
  | kv :: rest =>
    match partMatch kv.2 key with
    | some r => some r
    | none => cachesMatchAll key rest

/-! ### Strategies (`src/sw.js` lines 71-98) -/

/-- Outcome of one strategy run: the value the caller's promise settles to,
the CacheStorage afterwards, and the network fetches issued. -/
structure StratResult where
  resp : Except Unit (Option Response)
  st : CacheStorage
  fetches : List Request
  deriving Repr

/-- Strategy `cacheFirst` (lines 71-75): open the static partition, return the hit,
otherwise fall through to `fetch(request)` whose rejection propagates. -/
def cacheFirst (net : Network) (st : CacheStorage) (req : Request) : StratResult :=
  let st1 := cachesOpen STATIC_CACHE st
  match cacheMatch STATIC_CACHE req.url st1 with
  | some cached => { resp := .ok (some cached), st := st1, fetches := [] }
  | none =>
    match net req with
    | some r => { resp := .ok (some r), st := st1, fetches := [req] }
    | none => { resp := .error (), st := st1, fetches := [req] }

/-- Strategy `networkFirst` (lines 77-86). On fetch success the response is stored
in the runtime partition and returned. On fetch rejection the source
evaluates `cache.match(request) || caches.match('/offline.html')`:
both operands are Promise objects and a Promise is always truthy, so the
`||` short-circuits to the first operand and the offline-fallback lookup
is dead code — the caller receives whatever `cache.match(request)`
resolves to, which is `undefined` on a runtime-cache miss. -/
def networkFirst (net : Network) (st : CacheStorage) (req : Request) : StratResult :=
  let st1 := cachesOpen RUNTIME_CACHE st
  match net req with
  | some response =>
    { resp := .ok (some response),
      st := cachePut RUNTIME_CACHE req.url response st1,
      fetches := [req] }
  | none =>
    let _deadFallback := cachesMatchAll "/offline.html" st1
    { resp := .ok (cacheMatch RUNTIME_CACHE req.url st1), st := st1, fetches := [req] }

/-- Strategy `staleWhileRevalidate` (lines 88-98): look up the runtime partition,
always issue one revalidation fetch whose success overwrites the runtime
entry and whose failure is swallowed by `.catch(() => {})` (the promise
then resolves to `undefined`). Here `cached` is an awaited value, so
`cached || fetchPromise` returns the cached copy when it exists, without
waiting for the fetch, and the fetch promise's value otherwise. -/
def staleWhileRevalidate (net : Network) (st : CacheStorage) (req : Request) : StratResult :=
  let st1 := cachesOpen RUNTIME_CACHE st
  let cached := cacheMatch RUNTIME_CACHE req.url st1
  let st2 :=
    match net req with
    | some networkResponse => cachePut RUNTIME_CACHE req.url networkResponse st1
    | none => st1
  match cached with
  | some c => { resp := .ok (some c), st := st2, fetches := [req] }
  | none => { resp := .ok (net req), st := st2, fetches := [req] }

/-! ### Fetch handler (`src/sw.js` lines 47-68) -/

/-- Model of JavaScript `s.startsWith(p)`: `p`'s characters are a prefix
of `s`'s. -/
def strStartsWith (s p : String) : Bool := p.data.isPrefixOf s.data

/-- The STATIC test of the fetch handler (line 55):
`url.origin === location.origin && (url.pathname.startsWith('/assets') || PRECACHE_URLS.includes(url.pathname))`.
`selfOrigin` stands for the ambient `location.origin`. -/
def isStaticReq (selfOrigin : String) (req : Request) : Bool :=
  req.origin == selfOrigin &&
    (strStartsWith req.pathname "/assets" || PRECACHE_URLS.contains req.pathname)

/-- The three routing classes of the spec. -/
inductive ReqClass
  | STATIC
  | NAVIGATION
  | DYNAMIC
  deriving DecidableEq, Repr

/-- The classification decision of the fetch handler for a GET request,
read off the if-chain of lines 55-67. -/
def classify (selfOrigin : String) (req : Request) : ReqClass :=
  if isStaticReq selfOrigin req then .STATIC
  else if req.mode == "navigate" then .NAVIGATION
  else .DYNAMIC

/-- Classification as worded by the spec (section 4.4), for comparison with
`classify`: same-origin GET whose path starts with the static-asset prefix
or appears verbatim in the precache manifest is STATIC, with the STATIC
check taking priority over the navigation flag; otherwise a navigation
request is NAVIGATION; every other GET is DYNAMIC. -/
def classifySpec (selfOrigin : String) (req : Request) : ReqClass :=
  if req.origin == selfOrigin &&
      (strStartsWith req.pathname "/assets" || PRECACHE_URLS.contains req.pathname) then
    ReqClass.STATIC
  else if req.mode == "navigate" then ReqClass.NAVIGATION
  else ReqClass.DYNAMIC

/-- Outcome of the fetch event handler. `responded = none` models the
handler returning without calling `event.respondWith` (the request passes
straight through to the network, outside the pipeline). -/
structure FetchOutcome where
  responded : Option (Except Unit (Option Response))
  st : CacheStorage
  fetches : List Request
  deriving Repr

/-- The fetch event handler (lines 47-68): early return for non-GET, then
the strategy dispatch if-chain. -/
def handleFetch (selfOrigin : String) (net : Network) (st : CacheStorage)
    (req : Request) : FetchOutcome :=
  if req.method != "GET" then
    { responded := none, st := st, fetches := [] }
  else if isStaticReq selfOrigin req then
    let r := cacheFirst net st req
    { responded := some r.resp, st := r.st, fetches := r.fetches }
  else if req.mode == "navigate" then
    let r := networkFirst net st req
    { responded := some r.resp, st := r.st, fetches := r.fetches }
  else
    let r := staleWhileRevalidate net st req
    { responded := some r.resp, st := r.st, fetches := r.fetches }

/-! ### Install (`src/sw.js` lines 29-34) -/

/-- The GET request that `cache.addAll` issues for a manifest path,
resolved against the service worker's origin. -/
def precacheReq (selfOrigin : String) (path : String) : Request :=
  { method := "GET", url := selfOrigin ++ path, origin := selfOrigin,
    pathname := path, mode := "no-cors" }

/-- Model of `cache.addAll(paths)`: fetch every manifest path; the whole
operation rejects — and nothing is treated as stored — if any fetch fails
or resolves to a response whose status is not ok (`Cache.addAll` rejects
non-ok responses, so one 404 manifest entry breaks the install);
otherwise every response is stored, in manifest order, keyed by the
path's resolved absolute URL. -/
def cacheAddAll (selfOrigin : String) (net : Network) (name : String)
    (paths : List String) (st : CacheStorage) : Except Unit CacheStorage :=
  match paths with
  | [] => .ok st
  | u :: rest =>
    match net (precacheReq selfOrigin u) with
    | none => .error ()
    | some r =>
      if r.ok then
        cacheAddAll selfOrigin net name rest (cachePut name (selfOrigin ++ u) r st)
      else .error ()

/-- Outcome of the install event handler. -/
structure InstallOutcome where
  skipWaitingCalled : Bool
  result : Except Unit CacheStorage
  deriving Repr

/-- The install event handler (lines 29-34): calls `self.skipWaiting()`,
then `event.waitUntil(caches.open(STATIC_CACHE).then(c => c.addAll(PRECACHE_URLS)))`;
the install step succeeds only when the whole `addAll` resolves. Manifest
keys are stored under their resolved absolute URL. -/
def handleInstall (selfOrigin : String) (net : Network) (st : CacheStorage) : InstallOutcome :=
  { skipWaitingCalled := true,
    result :=
      cacheAddAll selfOrigin net STATIC_CACHE PRECACHE_URLS
        (cachesOpen STATIC_CACHE st) }

/-! ### Activate (`src/sw.js` lines 37-44) -/

/-- The names the activate sweep deletes, per line 40:
`key !== STATIC_CACHE && key !== RUNTIME_CACHE`, generalised over the
version tag. -/
def staleKeys (version : String) (keys : List String) : List String :=
  keys.filter (fun key =>
    key != staticCacheFor version && key != runtimeCacheFor version)

/-- The generation sweep: delete every stale key from the storage. -/
def sweep (version : String) (st : CacheStorage) : CacheStorage :=
  (staleKeys version (cachesKeys st)).foldl (fun s key => cachesDelete key s) st

/-- Observable events of one run of the activate handler, in order. -/
inductive ActEvent
  | claimClients
  | deleteCache (name : String)
  | sweepDone
  deriving DecidableEq, Repr

/-- The trace of the activate handler (lines 37-44) under JS evaluation
order: `event.waitUntil(caches.keys().then(...))` only registers the sweep
promise, then `self.clients.claim()` runs synchronously; the deletions run
in a later microtask, and the activation transition (`sweepDone`) is held
back by `waitUntil` until every deletion has resolved. -/
def activateTrace (version : String) (st : CacheStorage) : List ActEvent :=
  ActEvent.claimClients ::
    ((staleKeys version (cachesKeys st)).map ActEvent.deleteCache ++ [ActEvent.sweepDone])

/-- Claim predicate: every `deleteCache` event precedes every
`claimClients` event in the trace (client claiming happens only after the
sweep's deletions). -/
def deletesBeforeClaim (tr : List ActEvent) : Bool :=
  (tr.dropWhile (fun e => e != ActEvent.claimClients)).all
    (fun e => match e with
      | ActEvent.deleteCache _ => false
      | _ => true)

/-- The cache names deleted along a trace, in order. -/
def deletedNames (tr : List ActEvent) : List String :=
  tr.filterMap (fun e => match e with
    | ActEvent.deleteCache n => some n
    | _ => none)

/-! ### Push handler (`src/sw.js` lines 101-111) -/

/-- A JavaScript JSON value (numbers restricted to integers in this
model). -/
inductive Json
  | null
  | bool (b : Bool)
  | num (n : Int)
  | str (s : String)
  | arr (elems : List Json)
  | obj (members : List (String × Json))

/-- The opening-brace character, written by code point. -/
def braceOpen : Char := Char.ofNat 123

/-- The closing-brace character, written by code point. -/
def braceClose : Char := Char.ofNat 125

/-- Skip JSON whitespace. -/
def skipWs : List Char → List Char
  | [] => []
  | c :: cs =>
    if c = ' ' ∨ c = '\t' ∨ c = '\n' ∨ c = '\r' then skipWs cs else c :: cs

/-- Read the characters of a JSON string after its opening quote, up to the
closing quote, decoding backslash escapes (simple escapes only; no
Unicode escapes in this model). -/
def parseStrChars : List Char → Option (List Char × List Char)
  | [] => none
  | '"' :: rest => some ([], rest)
  | '\\' :: c :: rest =>
    let esc :=
      if c = 'n' then '\n' else if c = 't' then '\t'
      else if c = 'r' then '\r' else c
    (parseStrChars rest).map (fun p => (esc :: p.1, p.2))
  | c :: rest => (parseStrChars rest).map (fun p => (c :: p.1, p.2))

/-- Take the leading run of decimal digits. -/
def takeDigits : List Char → List Char × List Char
  | [] => ([], [])
  | c :: cs =>
    if c.isDigit then
      match takeDigits cs with
      | (ds, r) => (c :: ds, r)
    else ([], c :: cs)

/-- Decimal value of a digit run. -/
def digitsToNat (ds : List Char) : Nat :=
  ds.foldl (fun a c => a * 10 + (c.toNat - 48)) 0

mutual

/-- Fuel-indexed JSON value grammar (model of `JSON.parse`'s value rule). -/
def parseVal : Nat → List Char → Option (Json × List Char)
  | 0, _ => none
  | Nat.succ fuel, cs =>
    match skipWs cs with
    | [] => none
    | c :: rest =>
      if c = '"' then
        match parseStrChars rest with
        | some (s, r) => some (Json.str (String.mk s), r)
        | none => none
      else if c = braceOpen then
        match skipWs rest with
        | [] => none
        | d :: r2 =>
          if d = braceClose then some (Json.obj [], r2)
          else
            match parseMembers fuel (d :: r2) with
            | some (kvs, r3) => some (Json.obj kvs, r3)
            | none => none
      else if c = '[' then
        match skipWs rest with
        | [] => none
        | d :: r2 =>
          if d = ']' then some (Json.arr [], r2)
          else
            match parseElems fuel (d :: r2) with
            | some (xs, r3) => some (Json.arr xs, r3)
            | none => none
      else if c = 'n' then
        match rest with
        | 'u' :: 'l' :: 'l' :: r2 => some (Json.null, r2)
        | _ => none
      else if c = 't' then
        match rest with
        | 'r' :: 'u' :: 'e' :: r2 => some (Json.bool true, r2)
        | _ => none
      else if c = 'f' then
        match rest with
        | 'a' :: 'l' :: 's' :: 'e' :: r2 => some (Json.bool false, r2)
        | _ => none
      else if c = '-' then
        match takeDigits rest with
        | ([], _) => none
        | (ds, r2) => some (Json.num (-(Int.ofNat (digitsToNat ds))), r2)
      else if c.isDigit then
        match takeDigits (c :: rest) with
        | (ds, r2) => some (Json.num (Int.ofNat (digitsToNat ds)), r2)
      else none

/-- Fuel-indexed parse of the members of a JSON object, after the opening
brace, at least one member. -/
def parseMembers : Nat → List Char → Option (List (String × Json) × List Char)
  | 0, _ => none
  | Nat.succ fuel, cs =>
    match skipWs cs with
    | '"' :: rest =>
      match parseStrChars rest with
      | none => none
      | some (key, r1) =>
        match skipWs r1 with
        | ':' :: r2 =>
          match parseVal fuel r2 with
          | none => none
          | some (v, r3) =>
            match skipWs r3 with
            | [] => none
            | d :: r4 =>
              if d = ',' then
                match parseMembers fuel r4 with
                | some (kvs, r5) => some ((String.mk key, v) :: kvs, r5)
                | none => none
              else if d = braceClose then some ([(String.mk key, v)], r4)
              else none
        | _ => none
    | _ => none

/-- Fuel-indexed parse of the elements of a JSON array, after the opening
bracket, at least one element. -/
def parseElems : Nat → List Char → Option (List Json × List Char)
  | 0, _ => none
  | Nat.succ fuel, cs =>
    match parseVal fuel cs with
    | none => none
    | some (v, r1) =>
      match skipWs r1 with
      | ',' :: r2 =>
        match parseElems fuel r2 with
        | some (xs, r3) => some (v :: xs, r3)
        | none => none
      | ']' :: r2 => some ([v], r2)
      | _ => none

end

/-- Model of `JSON.parse` (as invoked by `PushMessageData.json()`): parse
one value and require only whitespace to remain. `none` models a thrown
`SyntaxError`. The model covers integer numbers and simple string escapes;
the fuel is ample for any input of the given length. -/
def Json.parse (s : String) : Option Json :=
  match parseVal (4 * s.length + 8) s.toList with
  | some (v, rest) => if skipWs rest = [] then some v else none
  | none => none

/-- JavaScript member access `v.field`: throws a `TypeError` on `null`,
yields `undefined` (`none`) on primitives and absent keys. -/
def jsProp : Json → String → Except Unit (Option Json)
  | Json.null, _ => .error ()
  | Json.obj kvs, k => .ok ((kvs.find? (fun kv => kv.1 == k)).map Prod.snd)
  | _, _ => .ok none

/-- JavaScript truthiness of a possibly-`undefined` value. -/
def jsTruthy : Option Json → Bool
  | none => false
  | some Json.null => false
  | some (Json.bool b) => b
  | some (Json.num n) => n != 0
  | some (Json.str s) => s != ""
  | some (Json.arr _) => true
  | some (Json.obj _) => true

/-- JavaScript `x || d` on an awaited value. -/
def jsOr (x : Option Json) (dflt : Json) : Json :=
  if jsTruthy x then x.getD dflt else dflt

/-- The notification displayed by the push handler: title argument plus
the options object of lines 104-109. -/
structure PushNotification where
  title : Json
  body : Json
  icon : String
  badge : String
  data : Json

/-- Field accesses and defaulting of lines 103-109, for an already parsed
payload value. -/
def pushShow (data : Json) : Except Unit PushNotification := do
  let t ← jsProp data "title"
  let b ← jsProp data "body"
  let u ← jsProp data "url"
  .ok { title := jsOr t (Json.str "Gabriel Remote Assistants"),
        body := jsOr b (Json.str "New update available."),
        icon := "/assets/icon-192.png",
        badge := "/assets/badge.png",
        data := jsOr u (Json.str "/") }

/-- The push event handler (lines 101-111):
`const data = event.data ? event.data.json() : ` empty object. A missing
payload (`event.data` null) falls back to the empty object; a present
payload is parsed by `.json()`, whose `SyntaxError` on malformed JSON
propagates out of the handler (`.error ()`: the event fails and no
notification is shown). -/
def handlePush (payload : Option String) : Except Unit PushNotification :=
  match payload with
  | none => pushShow (Json.obj [])
  | some s =>
    match Json.parse s with
    | none => .error ()
    | some data => pushShow data

/-! ### Concrete fixtures used by counterexamples and witnesses -/

/-- A concrete deployment origin standing for `location.origin`. -/
def appOrigin : String := "https://app.example"

/-- A network where every fetch resolves with status 200. -/
def netUp : Network := fun req => some { status := 200, body := req.url }

/-- An unreachable network: every fetch rejects. -/
def netDown : Network := fun _ => none

/-- A network where every fetch resolves with an HTTP 404 error status. -/
def net404 : Network := fun _ => some { status := 404, body := "Not Found" }

/-- The CacheStorage after a successful install against `netUp`. -/
def stInstalled : CacheStorage :=
  match (handleInstall appOrigin netUp []).result with
  | .ok s => s
  | .error _ => []

/-- A navigation GET to a page outside the precache manifest. -/
def navReq : Request :=
  { method := "GET", url := appOrigin ++ "/contact", origin := appOrigin,
    pathname := "/contact", mode := "navigate" }

/-- A POST request (the secure-form pipeline's traffic). -/
def reqPost : Request :=
  { method := "POST", url := appOrigin ++ "/api/submit", origin := appOrigin,
    pathname := "/api/submit", mode := "cors" }

/-- A navigation GET to a precached path. -/
def reqIndexNav : Request :=
  { method := "GET", url := appOrigin ++ "/index.html", origin := appOrigin,
    pathname := "/index.html", mode := "navigate" }

/-- A same-origin dynamic GET (API traffic). -/
def reqApi : Request :=
  { method := "GET", url := appOrigin ++ "/api/data", origin := appOrigin,
    pathname := "/api/data", mode := "cors" }

/-- A stored response used as a warm runtime-cache entry. -/
def cachedResp : Response := { status := 200, body := "cached" }

/-- A CacheStorage whose runtime partition holds a copy for `reqApi`. -/
def stRuntimeWarm : CacheStorage :=
  [(RUNTIME_CACHE, [(appOrigin ++ "/api/data", cachedResp)])]

/-- A CacheStorage holding the current static partition plus a stale one. -/
def stStale : CacheStorage := [(STATIC_CACHE, []), ("static‑old", [])]

/-! ## Supporting lemmas -/

theorem cachesKeys_filter (q : String → Bool) (st : CacheStorage) :
    cachesKeys (st.filter (fun kv => q kv.1)) = (cachesKeys st).filter q := by
  induction st with
  | nil => rfl
  | cons kv rest ih =>
    cases h : q kv.1 <;> simp [cachesKeys, List.filter_cons, h] <;>
      simpa [cachesKeys] using ih

theorem foldl_cachesDelete (D : List String) (st : CacheStorage) :
    D.foldl (fun s k => cachesDelete k s) st
      = st.filter (fun kv => !(D.contains kv.1)) := by
  induction D generalizing st with
  | nil => simp
  | cons k D ih =>
    show D.foldl _ (cachesDelete k st) = _
    rw [ih]
    unfold cachesDelete
    rw [List.filter_filter]
    apply List.filter_congr
    intro kv _
    by_cases h : kv.1 = k <;> simp [h, bne]

theorem deletedNames_cons_claim (tr : List ActEvent) :
    deletedNames (ActEvent.claimClients :: tr) = deletedNames tr := by
  simp [deletedNames, List.filterMap_cons]

theorem deletedNames_append (a b : List ActEvent) :
    deletedNames (a ++ b) = deletedNames a ++ deletedNames b := by
  simp [deletedNames, List.filterMap_append]

theorem deletedNames_map_delete (l : List String) :
    deletedNames (l.map ActEvent.deleteCache) = l := by
  induction l with
  | nil => rfl
  | cons n rest ih =>
    unfold deletedNames at ih ⊢
    simp only [List.map_cons, List.filterMap_cons]
    exact congrArg (n :: ·) ih

theorem sweep_eq_filter (v : String) (st : CacheStorage) :
    sweep v st
      = st.filter
          (fun kv => kv.1 == staticCacheFor v || kv.1 == runtimeCacheFor v) := by
  unfold sweep
  rw [foldl_cachesDelete]
  apply List.filter_congr
  intro kv hkv
  have hmem : kv.1 ∈ cachesKeys st := List.mem_map_of_mem Prod.fst hkv
  unfold staleKeys
  by_cases hs : kv.1 = staticCacheFor v
  · simp [hs, List.mem_filter]
  · by_cases hr : kv.1 = runtimeCacheFor v
    · simp [hr, List.mem_filter]
    · simp [hs, hr, List.mem_filter, hmem, bne]

theorem entriesOf_cachesOpen (n m : String) (st : CacheStorage) :
    entriesOf n (cachesOpen m st) = entriesOf n st := by
  unfold cachesOpen
  split
  · rfl
  · unfold entriesOf
    rw [List.find?_append]
    cases hf : st.find? (fun kv => kv.1 == n) with
    | some kv => simp [hf]
    | none =>
      by_cases hnm : m = n
      · simp [hf, hnm, List.find?]
      · have hmn : (m == n) = false := by simpa using hnm
        simp [hf, List.find?, hmn]

theorem cacheMatch_cachesOpen (n m k : String) (st : CacheStorage) :
    cacheMatch n k (cachesOpen m st) = cacheMatch n k st := by
  unfold cacheMatch
  rw [entriesOf_cachesOpen]

theorem putFun_comp (n m k : String) (r : Response) :
    ((fun kv : String × Partition => kv.1 == n)
        ∘ (fun kv : String × Partition =>
            if kv.1 == m then (kv.1, partPut kv.2 k r) else kv))
      = (fun kv : String × Partition => kv.1 == n) := by
  funext kv
  by_cases h : (kv.1 == m) = true <;> simp [Function.comp, h]

theorem find?_cachePut (n m k : String) (r : Response) (st : CacheStorage) :
    (cachePut m k r st).find? (fun kv => kv.1 == n)
      = (st.find? (fun kv => kv.1 == n)).map
          (fun kv => if kv.1 == m then (kv.1, partPut kv.2 k r) else kv) := by
  unfold cachePut
  rw [List.find?_map, putFun_comp]

theorem entriesOf_cachePut_ne (n m k : String) (r : Response) (st : CacheStorage)
    (h : n ≠ m) :
    entriesOf n (cachePut m k r st) = entriesOf n st := by
  unfold entriesOf
  rw [find?_cachePut]
  cases hf : st.find? (fun kv => kv.1 == n) with
  | none => rfl
  | some kv =>
    have h1 : kv.1 = n := by simpa using List.find?_some hf
    simp [h1, h]

theorem entriesOf_cachePut_self (n k : String) (r : Response) (st : CacheStorage)
    (h : st.any (fun kv => kv.1 == n) = true) :
    entriesOf n (cachePut n k r st) = partPut (entriesOf n st) k r := by
  unfold entriesOf
  rw [find?_cachePut]
  have hex : ∃ x, x ∈ st ∧ ((fun kv : String × Partition => kv.1 == n) x) = true := by
    simpa [List.any_eq_true] using h
  obtain ⟨kv, hkv⟩ := Option.isSome_iff_exists.mp (List.find?_isSome.mpr hex)
  rw [hkv]
  have h1 : kv.1 = n := by simpa using List.find?_some hkv
  simp [h1]

theorem any_cachePut (n m k : String) (r : Response) (st : CacheStorage) :
    (cachePut m k r st).any (fun kv => kv.1 == n)
      = st.any (fun kv => kv.1 == n) := by
  unfold cachePut
  rw [List.any_map, putFun_comp]

theorem cachePut_absent (n k : String) (r : Response) (st : CacheStorage)
    (h : st.any (fun kv => kv.1 == n) = false) :
    cachePut n k r st = st := by
  unfold cachePut
  have hkv : ∀ kv ∈ st,
      (if kv.1 == n then (kv.1, partPut kv.2 k r) else kv) = kv := by
    intro kv hmem
    have := List.any_eq_false.mp h kv hmem
    rw [if_neg (by simpa using this)]
  exact (List.map_congr_left hkv).trans (List.map_id' st)

theorem replFun_comp (n m : String) (r : Response) :
    ((fun kv : String × Response => kv.1 == n)
        ∘ (fun kv : String × Response => if kv.1 == m then (kv.1, r) else kv))
      = (fun kv : String × Response => kv.1 == n) := by
  funext kv
  by_cases h : (kv.1 == m) = true <;> simp [Function.comp, h]

theorem partMatch_partPut_self (p : Partition) (k : String) (r : Response) :
    partMatch (partPut p k r) k = some r := by
  unfold partPut
  split
  · rename_i hany
    unfold partMatch
    rw [List.find?_map, replFun_comp]
    have hex : ∃ x, x ∈ p ∧ ((fun kv : String × Response => kv.1 == k) x) = true := by
      simpa [List.any_eq_true] using hany
    obtain ⟨kv, hkv⟩ := Option.isSome_iff_exists.mp (List.find?_isSome.mpr hex)
    rw [hkv]
    have h1 : kv.1 = k := by simpa using List.find?_some hkv
    simp [h1]
  · rename_i hany
    have hf : p.find? (fun kv => kv.1 == k) = none := by
      rw [List.find?_eq_none]
      intro x hx
      exact List.any_eq_false.mp (Bool.eq_false_iff.mpr hany) x hx
    unfold partMatch
    rw [List.find?_append, hf]
    simp [List.find?]

theorem partMatch_partPut_ne (p : Partition) (k k2 : String) (r : Response)
    (h : k ≠ k2) :
    partMatch (partPut p k2 r) k = partMatch p k := by
  unfold partPut
  split
  · unfold partMatch
    rw [List.find?_map, replFun_comp]
    cases hf : p.find? (fun kv => kv.1 == k) with
    | none => rfl
    | some kv =>
      have h1 : kv.1 = k := by simpa using List.find?_some hf
      simp [h1, h]
  · unfold partMatch
    rw [List.find?_append]
    cases hf : p.find? (fun kv => kv.1 == k) with
    | some kv => simp [hf]
    | none =>
      have h2 : (k2 == k) = false := by simpa using (Ne.symm h)
      simp [hf, List.find?, h2]

theorem cachesOpen_any_self (n : String) (st : CacheStorage) :
    (cachesOpen n st).any (fun kv => kv.1 == n) = true := by
  unfold cachesOpen
  split
  · assumption
  · simp [List.any_append]

theorem cacheMatch_cachePut_self (n k : String) (r : Response) (st : CacheStorage)
    (h : st.any (fun kv => kv.1 == n) = true) :
    cacheMatch n k (cachePut n k r st) = some r := by
  unfold cacheMatch
  rw [entriesOf_cachePut_self n k r st h]
  exact partMatch_partPut_self _ k r

theorem cacheMatch_cachePut_ne_key (n k k2 : String) (r : Response)
    (st : CacheStorage) (hk : k ≠ k2) :
    cacheMatch n k (cachePut n k2 r st) = cacheMatch n k st := by
  cases hany : st.any (fun kv => kv.1 == n) with
  | true =>
    unfold cacheMatch
    rw [entriesOf_cachePut_self n k2 r st hany]
    exact partMatch_partPut_ne _ k k2 r hk
  | false => rw [cachePut_absent n k2 r st hany]

/-! ## Claims -/

/-- C4: after the activate handler's sweep under version tag `v`, exactly
the current static and runtime partition names for `v` remain (every name
not equal to one of those two is deleted), and the sweep is idempotent: a
repeated activation with the same version tag deletes nothing. -/
theorem claim_C4_generation_sweep (v : String) (st : CacheStorage) :
    cachesKeys (sweep v st)
      = (cachesKeys st).filter
          (fun k => k == staticCacheFor v || k == runtimeCacheFor v)
    ∧ sweep v (sweep v st) = sweep v st
    ∧ staleKeys v (cachesKeys (sweep v st)) = [] := by
  have hpt : ∀ x : String,
      ((x != staticCacheFor v && x != runtimeCacheFor v)
        && (x == staticCacheFor v || x == runtimeCacheFor v)) = false := by
    intro x
    by_cases hs : x = staticCacheFor v
    · simp [hs]
    · by_cases hr : x = runtimeCacheFor v <;> simp [hs, hr, bne]
  refine ⟨?_, ?_, ?_⟩
  · rw [sweep_eq_filter]
    exact cachesKeys_filter
      (fun k => k == staticCacheFor v || k == runtimeCacheFor v) st
  · calc sweep v (sweep v st)
        = List.filter
            (fun kv => kv.1 == staticCacheFor v || kv.1 == runtimeCacheFor v)
            (List.filter
              (fun kv => kv.1 == staticCacheFor v || kv.1 == runtimeCacheFor v)
              st) := by rw [sweep_eq_filter, sweep_eq_filter]
      _ = List.filter
            (fun kv =>
              (kv.1 == staticCacheFor v || kv.1 == runtimeCacheFor v)
                && (kv.1 == staticCacheFor v || kv.1 == runtimeCacheFor v))
            st := List.filter_filter _ st
      _ = List.filter
            (fun kv => kv.1 == staticCacheFor v || kv.1 == runtimeCacheFor v)
            st := List.filter_congr (fun x _ => Bool.and_self _)
      _ = sweep v st := (sweep_eq_filter v st).symm
  · rw [sweep_eq_filter,
      cachesKeys_filter (fun k => k == staticCacheFor v || k == runtimeCacheFor v) st]
    unfold staleKeys
    rw [List.filter_filter]
    calc List.filter
          (fun k =>
            (k != staticCacheFor v && k != runtimeCacheFor v)
              && (k == staticCacheFor v || k == runtimeCacheFor v))
          (cachesKeys st)
        = List.filter (fun _ => false) (cachesKeys st) :=
          List.filter_congr (fun x _ => hpt x)
      _ = [] := List.filter_false _

/-- C3 counterexample: in the activate handler's trace on a storage
holding one stale partition, client claiming does not come after the
sweep's deletions — `clients.claim()` is the very first event. -/
theorem claim_C3_counterexample :
    deletesBeforeClaim (activateTrace VERSION stStale) = false := by decide

/-- C3 amended: `self.clients.claim()` runs synchronously when the
activate event fires — before the stale-partition deletions, not after
them — while the activation transition (`sweepDone`) is still suspended
until every deletion has completed, and exactly the stale keys are
deleted. -/
theorem claim_C3_activation_order (v : String) (st : CacheStorage) :
    (activateTrace v st).head? = some ActEvent.claimClients
    ∧ (activateTrace v st).getLast? = some ActEvent.sweepDone
    ∧ deletedNames (activateTrace v st) = staleKeys v (cachesKeys st) := by
  refine ⟨rfl, ?_, ?_⟩
  · show (ActEvent.claimClients
        :: ((staleKeys v (cachesKeys st)).map ActEvent.deleteCache
            ++ [ActEvent.sweepDone])).getLast? = some ActEvent.sweepDone
    rw [← List.cons_append, List.getLast?_concat]
  · unfold activateTrace
    rw [deletedNames_cons_claim, deletedNames_append, deletedNames_map_delete]
    simp [deletedNames, List.filterMap_cons]

/-- C7: for every intercepted non-GET request the fetch handler does not
intercept the response, reads and writes no cache partition, and issues no
fetch: it returns with the CacheStorage unchanged. -/
theorem claim_C7_non_get_bypass (o : String) (net : Network) (st : CacheStorage)
    (req : Request) (h : req.method ≠ "GET") :
    handleFetch o net st req = { responded := none, st := st, fetches := [] } := by
  unfold handleFetch
  simp [h]

/-- C7 witness: a concrete POST request passes straight through. -/
theorem claim_C7_witness :
    handleFetch appOrigin netUp [] reqPost
      = { responded := none, st := [], fetches := [] } :=
  claim_C7_non_get_bypass appOrigin netUp [] reqPost (by decide)

/-! ## Strategy projection lemmas -/

theorem cf_st (net : Network) (st : CacheStorage) (req : Request) :
    (cacheFirst net st req).st = cachesOpen STATIC_CACHE st := by
  simp only [cacheFirst]
  split
  · rfl
  · split <;> rfl

theorem nf_st_of_some (net : Network) (st : CacheStorage) (req : Request)
    (r : Response) (h : net req = some r) :
    (networkFirst net st req).st
      = cachePut RUNTIME_CACHE req.url r (cachesOpen RUNTIME_CACHE st) := by
  simp only [networkFirst, h]

theorem nf_st_of_none (net : Network) (st : CacheStorage) (req : Request)
    (h : net req = none) :
    (networkFirst net st req).st = cachesOpen RUNTIME_CACHE st := by
  simp only [networkFirst, h]

theorem swr_st_of_some (net : Network) (st : CacheStorage) (req : Request)
    (r : Response) (h : net req = some r) :
    (staleWhileRevalidate net st req).st
      = cachePut RUNTIME_CACHE req.url r (cachesOpen RUNTIME_CACHE st) := by
  simp only [staleWhileRevalidate, h]
  split <;> rfl

theorem swr_st_of_none (net : Network) (st : CacheStorage) (req : Request)
    (h : net req = none) :
    (staleWhileRevalidate net st req).st = cachesOpen RUNTIME_CACHE st := by
  simp only [staleWhileRevalidate, h]
  split <;> rfl

theorem swr_resp_of_cached (net : Network) (st : CacheStorage) (req : Request)
    (c : Response) (h : cacheMatch RUNTIME_CACHE req.url st = some c) :
    (staleWhileRevalidate net st req).resp = Except.ok (some c) := by
  simp only [staleWhileRevalidate, cacheMatch_cachesOpen, h]

theorem swr_resp_of_uncached (net : Network) (st : CacheStorage) (req : Request)
    (h : cacheMatch RUNTIME_CACHE req.url st = none) :
    (staleWhileRevalidate net st req).resp = Except.ok (net req) := by
  simp only [staleWhileRevalidate, cacheMatch_cachesOpen, h]

theorem swr_fetches (net : Network) (st : CacheStorage) (req : Request) :
    (staleWhileRevalidate net st req).fetches = [req] := by
  simp only [staleWhileRevalidate]
  split <;> rfl

/-- C8: no strategy execution ever writes to the static partition:
`cacheFirst` stores nothing at all, and `networkFirst` and
`staleWhileRevalidate` write only to the runtime partition, so the entries
of every other partition — the static one in particular — are left exactly
as they were. -/
theorem claim_C8_static_partition_immutable (net : Network) (st : CacheStorage)
    (req : Request) :
    (∀ name, entriesOf name (cacheFirst net st req).st = entriesOf name st)
    ∧ (∀ name, name ≠ RUNTIME_CACHE →
        entriesOf name (networkFirst net st req).st = entriesOf name st)
    ∧ (∀ name, name ≠ RUNTIME_CACHE →
        entriesOf name (staleWhileRevalidate net st req).st = entriesOf name st)
    ∧ entriesOf STATIC_CACHE (networkFirst net st req).st
        = entriesOf STATIC_CACHE st
    ∧ entriesOf STATIC_CACHE (staleWhileRevalidate net st req).st
        = entriesOf STATIC_CACHE st := by
  have hcf : ∀ name,
      entriesOf name (cacheFirst net st req).st = entriesOf name st := by
    intro name
    rw [cf_st, entriesOf_cachesOpen]
  have hnf : ∀ name, name ≠ RUNTIME_CACHE →
      entriesOf name (networkFirst net st req).st = entriesOf name st := by
    intro name hne
    cases hn : net req with
    | some r =>
      rw [nf_st_of_some net st req r hn,
        entriesOf_cachePut_ne name RUNTIME_CACHE req.url r _ hne,
        entriesOf_cachesOpen]
    | none => rw [nf_st_of_none net st req hn, entriesOf_cachesOpen]
  have hswr : ∀ name, name ≠ RUNTIME_CACHE →
      entriesOf name (staleWhileRevalidate net st req).st = entriesOf name st := by
    intro name hne
    cases hn : net req with
    | some r =>
      rw [swr_st_of_some net st req r hn,
        entriesOf_cachePut_ne name RUNTIME_CACHE req.url r _ hne,
        entriesOf_cachesOpen]
    | none => rw [swr_st_of_none net st req hn, entriesOf_cachesOpen]
  have hsr : STATIC_CACHE ≠ RUNTIME_CACHE := by decide
  exact ⟨hcf, hnf, hswr, hnf _ hsr, hswr _ hsr⟩

/-- C8 witness: concrete runs of the runtime-writing strategies leave the
static partition's entries unchanged. -/
theorem claim_C8_witness :
    entriesOf STATIC_CACHE (networkFirst netUp [] reqApi).st
      = entriesOf STATIC_CACHE []
    ∧ entriesOf STATIC_CACHE (staleWhileRevalidate netUp [] reqApi).st
      = entriesOf STATIC_CACHE [] :=
  ⟨(claim_C8_static_partition_immutable netUp [] reqApi).2.1 STATIC_CACHE (by decide),
   (claim_C8_static_partition_immutable netUp [] reqApi).2.2.1 STATIC_CACHE (by decide)⟩

/-- C5: `staleWhileRevalidate` returns an existing runtime-partition copy
immediately — the returned value does not depend on the network (the
theorem holds for every `net`); on a cache miss the caller receives the
network fetch's result; exactly one revalidation fetch is issued per
invocation; and the promise never rejects (background fetch errors are
swallowed). -/
theorem claim_C5_stale_while_revalidate (net : Network) (st : CacheStorage)
    (req : Request) :
    (∀ c, cacheMatch RUNTIME_CACHE req.url st = some c →
        (staleWhileRevalidate net st req).resp = Except.ok (some c))
    ∧ (cacheMatch RUNTIME_CACHE req.url st = none →
        (staleWhileRevalidate net st req).resp = Except.ok (net req))
    ∧ (staleWhileRevalidate net st req).fetches = [req]
    ∧ ∃ v, (staleWhileRevalidate net st req).resp = Except.ok v := by
  refine ⟨fun c h => swr_resp_of_cached net st req c h,
    swr_resp_of_uncached net st req, swr_fetches net st req, ?_⟩
  cases h : cacheMatch RUNTIME_CACHE req.url st with
  | some c => exact ⟨some c, swr_resp_of_cached net st req c h⟩
  | none => exact ⟨net req, swr_resp_of_uncached net st req h⟩

/-- C5 witness: with the network down, a warm runtime cache still answers
with the cached copy, and a cold one resolves to the (swallowed) fetch
outcome. -/
theorem claim_C5_witness :
    (staleWhileRevalidate netDown stRuntimeWarm reqApi).resp
      = Except.ok (some cachedResp)
    ∧ (staleWhileRevalidate netDown [] reqApi).resp = Except.ok none :=
  ⟨(claim_C5_stale_while_revalidate netDown stRuntimeWarm reqApi).1 cachedResp rfl,
   (claim_C5_stale_while_revalidate netDown [] reqApi).2.1 rfl⟩

/-- C10 (implicit): `networkFirst` and `staleWhileRevalidate` store every
resolved fetch response into the runtime partition with no check of its
HTTP status, and the stored copy — even a 404 or 500 — is what a later
`staleWhileRevalidate` serves as the stale response. -/
theorem claim_C10_error_status_cached (net : Network) (st : CacheStorage)
    (req : Request) (r : Response) (h : net req = some r) :
    cacheMatch RUNTIME_CACHE req.url (networkFirst net st req).st = some r
    ∧ cacheMatch RUNTIME_CACHE req.url (staleWhileRevalidate net st req).st = some r
    ∧ ∀ net2 : Network,
        (staleWhileRevalidate net2 (networkFirst net st req).st req).resp
          = Except.ok (some r) := by
  have hput : cacheMatch RUNTIME_CACHE req.url
      (cachePut RUNTIME_CACHE req.url r (cachesOpen RUNTIME_CACHE st)) = some r :=
    cacheMatch_cachePut_self _ _ r _ (cachesOpen_any_self _ st)
  refine ⟨?_, ?_, ?_⟩
  · rw [nf_st_of_some net st req r h]
    exact hput
  · rw [swr_st_of_some net st req r h]
    exact hput
  · intro net2
    apply swr_resp_of_cached
    rw [nf_st_of_some net st req r h]
    exact hput

/-- C10 witness: a 404 response is stored in the runtime partition and is
then served as the stale copy even with the network down. -/
theorem claim_C10_witness :
    cacheMatch RUNTIME_CACHE reqApi.url (networkFirst net404 [] reqApi).st
      = some { status := 404, body := "Not Found" }
    ∧ (staleWhileRevalidate netDown (networkFirst net404 [] reqApi).st reqApi).resp
      = Except.ok (some { status := 404, body := "Not Found" }) :=
  ⟨(claim_C10_error_status_cached net404 [] reqApi _ rfl).1,
   (claim_C10_error_status_cached net404 [] reqApi _ rfl).2.2 netDown⟩

/-- C6: the fetch handler classifies every GET request in fixed priority
order — the same-origin static test (asset-path prefix or verbatim
manifest membership) wins even over a navigation request, then the
navigation flag, then DYNAMIC — the classifier agrees with the spec's
wording, and the handler dispatches each class to its strategy. -/
theorem claim_C6_classifier_priority (o : String) (net : Network)
    (st : CacheStorage) (req : Request) :
    classify o req = classifySpec o req
    ∧ (isStaticReq o req = true → classify o req = ReqClass.STATIC)
    ∧ (isStaticReq o req = false → req.mode = "navigate" →
        classify o req = ReqClass.NAVIGATION)
    ∧ (isStaticReq o req = false → req.mode ≠ "navigate" →
        classify o req = ReqClass.DYNAMIC)
    ∧ (req.method = "GET" →
        handleFetch o net st req
          = match classify o req with
            | ReqClass.STATIC =>
              { responded := some (cacheFirst net st req).resp,
                st := (cacheFirst net st req).st,
                fetches := (cacheFirst net st req).fetches }
            | ReqClass.NAVIGATION =>
              { responded := some (networkFirst net st req).resp,
                st := (networkFirst net st req).st,
                fetches := (networkFirst net st req).fetches }
            | ReqClass.DYNAMIC =>
              { responded := some (staleWhileRevalidate net st req).resp,
                st := (staleWhileRevalidate net st req).st,
                fetches := (staleWhileRevalidate net st req).fetches }) := by
  refine ⟨rfl, ?_, ?_, ?_, ?_⟩
  · intro h
    simp [classify, h]
  · intro h hm
    simp [classify, h, hm]
  · intro h hm
    simp [classify, h, hm]
  · intro hget
    have hg : (req.method != "GET") = false := by simp [hget]
    simp only [handleFetch, hg, Bool.false_eq_true, if_false]
    unfold classify
    by_cases h1 : isStaticReq o req = true
    · simp [h1]
    · have h1f : isStaticReq o req = false := by simpa using h1
      by_cases h2 : (req.mode == "navigate") = true
      · simp [h1f, h2]
      · have h2f : (req.mode == "navigate") = false := by simpa using h2
        simp [h1f, h2f]

theorem string_append_left_cancel {o u v : String} (h : o ++ u = o ++ v) :
    u = v := by
  have hd : o.data ++ u.data = o.data ++ v.data := by
    have := congrArg String.data h
    simpa [String.data_append] using this
  have hud : u.data = v.data := List.append_cancel_left hd
  cases u
  cases v
  exact congrArg String.mk hud

theorem cacheAddAll_error (o : String) (net : Network) (name : String) :
    ∀ (urls : List String) (st : CacheStorage),
      (∃ u ∈ urls, net (precacheReq o u) = none) →
      cacheAddAll o net name urls st = Except.error () := by
  intro urls
  induction urls with
  | nil =>
    intro st h
    obtain ⟨u, hu, _⟩ := h
    cases hu
  | cons u rest ih =>
    intro st h
    obtain ⟨w, hw, hnet⟩ := h
    cases hn : net (precacheReq o u) with
    | none => simp only [cacheAddAll, hn]
    | some r =>
      simp only [cacheAddAll, hn]
      by_cases hok : r.ok = true
      · rw [if_pos hok]
        apply ih
        cases List.mem_cons.mp hw with
        | inl he =>
          rw [he, hn] at hnet
          exact absurd hnet (by simp)
        | inr hr => exact ⟨w, hr, hnet⟩
      · rw [if_neg hok]

theorem cacheAddAll_notOk (o : String) (net : Network) (name : String) :
    ∀ (urls : List String) (st : CacheStorage),
      (∃ u ∈ urls, ∃ r, net (precacheReq o u) = some r ∧ r.ok = false) →
      cacheAddAll o net name urls st = Except.error () := by
  intro urls
  induction urls with
  | nil =>
    intro st h
    obtain ⟨u, hu, _⟩ := h
    cases hu
  | cons u rest ih =>
    intro st h
    obtain ⟨w, hw, r2, hr2, hok2⟩ := h
    cases hn : net (precacheReq o u) with
    | none => simp only [cacheAddAll, hn]
    | some r =>
      simp only [cacheAddAll, hn]
      by_cases hok : r.ok = true
      · rw [if_pos hok]
        apply ih
        cases List.mem_cons.mp hw with
        | inl he =>
          rw [he, hn] at hr2
          injection hr2 with h3
          rw [← h3, hok] at hok2
          exact Bool.noConfusion hok2
        | inr hr => exact ⟨w, hr, r2, hr2, hok2⟩
      · rw [if_neg hok]

theorem cacheAddAll_ok (o : String) (net : Network) (name : String) :
    ∀ (urls : List String) (st : CacheStorage),
      (∀ u ∈ urls, ∃ r, net (precacheReq o u) = some r ∧ r.ok = true) →
      ∃ st2, cacheAddAll o net name urls st = Except.ok st2 := by
  intro urls
  induction urls with
  | nil => exact fun st _ => ⟨st, rfl⟩
  | cons u rest ih =>
    intro st h
    obtain ⟨r, hr, hok⟩ := h u (List.mem_cons_self u rest)
    simp only [cacheAddAll, hr]
    rw [if_pos hok]
    exact ih _ (fun w hw => h w (List.mem_cons_of_mem u hw))

theorem cacheAddAll_preserves (o : String) (net : Network) (name w : String) :
    ∀ (urls : List String) (st st2 : CacheStorage),
      st.any (fun kv => kv.1 == name) = true →
      cacheAddAll o net name urls st = Except.ok st2 →
      cacheMatch name (o ++ w) st = net (precacheReq o w) →
      cacheMatch name (o ++ w) st2 = net (precacheReq o w) := by
  intro urls
  induction urls with
  | nil =>
    intro st st2 _ h hm
    injection h with h2
    rw [← h2]
    exact hm
  | cons u rest ih =>
    intro st st2 hany h hm
    cases hn : net (precacheReq o u) with
    | none =>
      simp only [cacheAddAll, hn] at h
      exact Except.noConfusion h
    | some r =>
      simp only [cacheAddAll, hn] at h
      by_cases hok : r.ok = true
      case neg =>
        rw [if_neg hok] at h
        exact Except.noConfusion h
      rw [if_pos hok] at h
      have hany2 : (cachePut name (o ++ u) r st).any (fun kv => kv.1 == name) = true := by
        rw [any_cachePut]
        exact hany
      apply ih (cachePut name (o ++ u) r st) st2 hany2 h
      by_cases hww : w = u
      · rw [hww, hn]
        exact cacheMatch_cachePut_self name (o ++ u) r st hany
      · have hkey : o ++ w ≠ o ++ u := fun hc => hww (string_append_left_cancel hc)
        rw [cacheMatch_cachePut_ne_key name (o ++ w) (o ++ u) r st hkey]
        exact hm

theorem cacheAddAll_stores (o : String) (net : Network) (name : String) :
    ∀ (urls : List String) (st st2 : CacheStorage),
      st.any (fun kv => kv.1 == name) = true →
      cacheAddAll o net name urls st = Except.ok st2 →
      ∀ u ∈ urls, cacheMatch name (o ++ u) st2 = net (precacheReq o u) := by
  intro urls
  induction urls with
  | nil =>
    intro st st2 _ _ u hu
    cases hu
  | cons u rest ih =>
    intro st st2 hany h w hw
    cases hn : net (precacheReq o u) with
    | none =>
      simp only [cacheAddAll, hn] at h
      exact Except.noConfusion h
    | some r =>
      simp only [cacheAddAll, hn] at h
      by_cases hok : r.ok = true
      case neg =>
        rw [if_neg hok] at h
        exact Except.noConfusion h
      rw [if_pos hok] at h
      have hany2 : (cachePut name (o ++ u) r st).any (fun kv => kv.1 == name) = true := by
        rw [any_cachePut]
        exact hany
      cases List.mem_cons.mp hw with
      | inl he =>
        subst he
        apply cacheAddAll_preserves o net name w rest
          (cachePut name (o ++ w) r st) st2 hany2 h
        rw [hn]
        exact cacheMatch_cachePut_self name (o ++ w) r st hany
      | inr hr => exact ih (cachePut name (o ++ u) r st) st2 hany2 h w hr

/-- C9: the install handler requests immediate activation (skip waiting);
the whole install step fails if fetching any single manifest entry fails,
whether the fetch rejects outright or resolves to a non-ok response
(`Cache.addAll` rejects those too); and only when every fetch resolves ok
does the step complete, with every manifest entry stored in the static
partition under its resolved URL, keyed to the fetched response. -/
theorem claim_C9_install_fail_fast (o : String) (net : Network)
    (st : CacheStorage) :
    (handleInstall o net st).skipWaitingCalled = true
    ∧ ((∃ u ∈ PRECACHE_URLS, net (precacheReq o u) = none) →
        (handleInstall o net st).result = Except.error ())
    ∧ ((∃ u ∈ PRECACHE_URLS, ∃ r, net (precacheReq o u) = some r ∧ r.ok = false) →
        (handleInstall o net st).result = Except.error ())
    ∧ ((∀ u ∈ PRECACHE_URLS, ∃ r, net (precacheReq o u) = some r ∧ r.ok = true) →
        ∃ st2, (handleInstall o net st).result = Except.ok st2
          ∧ ∀ u ∈ PRECACHE_URLS,
              cacheMatch STATIC_CACHE (o ++ u) st2 = net (precacheReq o u)) := by
  refine ⟨rfl, ?_, ?_, ?_⟩
  · intro h
    exact cacheAddAll_error o net STATIC_CACHE PRECACHE_URLS _ h
  · intro h
    exact cacheAddAll_notOk o net STATIC_CACHE PRECACHE_URLS _ h
  · intro h
    obtain ⟨st2, hok⟩ :=
      cacheAddAll_ok o net STATIC_CACHE PRECACHE_URLS (cachesOpen STATIC_CACHE st) h
    exact ⟨st2, hok,
      cacheAddAll_stores o net STATIC_CACHE PRECACHE_URLS
        (cachesOpen STATIC_CACHE st) st2 (cachesOpen_any_self _ st) hok⟩

/-- C9 witness: a dead network makes the install step fail, a network
serving only 404s makes it fail too, and a live all-200 network installs
every manifest entry. -/
theorem claim_C9_witness :
    (handleInstall appOrigin netDown []).result = Except.error ()
    ∧ (handleInstall appOrigin net404 []).result = Except.error ()
    ∧ ∃ st2, (handleInstall appOrigin netUp []).result = Except.ok st2
        ∧ ∀ u ∈ PRECACHE_URLS,
            cacheMatch STATIC_CACHE (appOrigin ++ u) st2
              = netUp (precacheReq appOrigin u) :=
  ⟨(claim_C9_install_fail_fast appOrigin netDown []).2.1 ⟨"/", by decide, rfl⟩,
   (claim_C9_install_fail_fast appOrigin net404 []).2.2.1
     ⟨"/", by decide, { status := 404, body := "Not Found" }, rfl, rfl⟩,
   (claim_C9_install_fail_fast appOrigin netUp []).2.2.2 (fun u _ => ⟨_, rfl, rfl⟩)⟩

/-- C6 witness: a navigation request to a precached path is STATIC, a
navigation to a non-precached page is NAVIGATION, an API GET is DYNAMIC,
and the handler dispatches per the class. -/
theorem claim_C6_witness :
    classify appOrigin reqIndexNav = ReqClass.STATIC
    ∧ classify appOrigin navReq = ReqClass.NAVIGATION
    ∧ classify appOrigin reqApi = ReqClass.DYNAMIC
    ∧ handleFetch appOrigin netUp [] navReq
        = match classify appOrigin navReq with
          | ReqClass.STATIC =>
            { responded := some (cacheFirst netUp [] navReq).resp,
              st := (cacheFirst netUp [] navReq).st,
              fetches := (cacheFirst netUp [] navReq).fetches }
          | ReqClass.NAVIGATION =>
            { responded := some (networkFirst netUp [] navReq).resp,
              st := (networkFirst netUp [] navReq).st,
              fetches := (networkFirst netUp [] navReq).fetches }
          | ReqClass.DYNAMIC =>
            { responded := some (staleWhileRevalidate netUp [] navReq).resp,
              st := (staleWhileRevalidate netUp [] navReq).st,
              fetches := (staleWhileRevalidate netUp [] navReq).fetches } :=
  ⟨(claim_C6_classifier_priority appOrigin netUp [] reqIndexNav).2.1 (by decide),
   (claim_C6_classifier_priority appOrigin netUp [] navReq).2.2.1 (by decide) rfl,
   (claim_C6_classifier_priority appOrigin netUp [] reqApi).2.2.2.1 (by decide)
     (by decide),
   (claim_C6_classifier_priority appOrigin netUp [] navReq).2.2.2.2 rfl⟩

/-- C1 (code bug): on a navigation GET with the network unreachable and no
prior runtime copy — even right after a fully successful install —
`networkFirst` resolves to `undefined` (`Except.ok none`), not the offline
fallback page: line 84 applies `||` to the Promise returned by
`cache.match(request)`, which is always truthy, so the
`caches.match('/offline.html')` operand is dead code; and `/offline.html`
is not an element of the precache manifest in the first place, so no
partition holds it after install. -/
theorem claim_C1_offline_fallback_bug :
    PRECACHE_URLS.contains "/offline.html" = false
    ∧ classify appOrigin navReq = ReqClass.NAVIGATION
    ∧ (networkFirst netDown stInstalled navReq).resp = Except.ok none
    ∧ cachesMatchAll "/offline.html" stInstalled = none :=
  ⟨by decide, by decide, rfl, rfl⟩

/-- C2 counterexample: a push event whose payload is present but not valid
JSON makes `event.data.json()` throw — the handler fails the event and no
default-valued notification is shown, contrary to the claim. -/
theorem claim_C2_counterexample :
    handlePush (some "\x7b") = Except.error () := rfl

/-- C2 amended: when the push payload is absent the handler never fails
and shows a notification with the default title and body and with target
URL equal to the site root; the same defaults fill in for fields missing
from a well-formed payload; but when a payload is present and malformed
(not valid JSON) the handler throws and the event fails. -/
theorem claim_C2_push_defaults :
    handlePush none = Except.ok
      { title := Json.str "Gabriel Remote Assistants",
        body := Json.str "New update available.",
        icon := "/assets/icon-192.png",
        badge := "/assets/badge.png",
        data := Json.str "/" }
    ∧ handlePush (some "\x7b\x7d") = Except.ok
      { title := Json.str "Gabriel Remote Assistants",
        body := Json.str "New update available.",
        icon := "/assets/icon-192.png",
        badge := "/assets/badge.png",
        data := Json.str "/" }
    ∧ handlePush (some "\x7b\"title\":\"Hi\"\x7d") = Except.ok
      { title := Json.str "Hi",
        body := Json.str "New update available.",
        icon := "/assets/icon-192.png",
        badge := "/assets/badge.png",
        data := Json.str "/" }
    ∧ ∀ s, Json.parse s = none → handlePush (some s) = Except.error () := by
  refine ⟨rfl, rfl, rfl, ?_⟩
  intro s h
  simp only [handlePush, h]

/-- C2 witness: a concrete malformed payload exercises the failure arm of
the amended claim. -/
theorem claim_C2_witness :
    handlePush (some "\x7bbad json") = Except.error () :=
  claim_C2_push_defaults.2.2.2 "\x7bbad json" rfl

end SW
